import Mathlib

/-!
Shallow embedding of the `hairydogm` package (callback-data codec, callback
query filter, inline keyboard builder, chat action sender) and proofs about
the claims of its specification.

Python strings are modelled as `List Char` (`PyStr`), Python `int` as `Int`,
and fallible Python code as `Except`/`Option` values whose error constructors
record which Python exception is raised.
-/

namespace Hairydogm

/-- Decidable equality for `Except`, so that concrete codec runs can be
checked by `decide`. -/
instance instDecEqExcept {ε α : Type} [DecidableEq ε] [DecidableEq α] :
    DecidableEq (Except ε α) := fun a b =>
  match a, b with
  | Except.ok x, Except.ok y =>
    if h : x = y then Decidable.isTrue (congrArg Except.ok h)
    else Decidable.isFalse (fun hc => h (Except.ok.inj hc))
  | Except.error e, Except.error f =>
    if h : e = f then Decidable.isTrue (congrArg Except.error h)
    else Decidable.isFalse (fun hc => h (Except.error.inj hc))
  | Except.ok _, Except.error _ => Decidable.isFalse (fun hc => Except.noConfusion hc)
  | Except.error _, Except.ok _ => Decidable.isFalse (fun hc => Except.noConfusion hc)

/-! ## A fragment of Python's `typing` runtime

`_check_field_is_nullable` (present in both `callback_data.py` and
`filters/callback_data.py`) inspects a pydantic `FieldInfo` via
`typing.get_origin` / `typing.get_args`.  We model just enough of Python's
object model to give those calls their real meaning:

* `typing.get_args` applied to a `Union[...]` annotation returns a tuple of
  *type objects* (classes / type forms).  Python normalises `None` inside a
  union to the class `NoneType` (= `type(None)`) and flattens nested unions,
  so the tuple holds only plain classes such as `int` or `NoneType`.
* membership (`x in tup`) compares with `is` / `==`; the *value* `None` is
  neither identical nor equal to any class, and the special form
  `typing.Union` likewise never appears among the arguments of a union.
-/

/-- Python runtime objects, as far as the membership tests performed by the
nullable checks can distinguish them: the value `None`, the class
`NoneType`, any other class (identified by its name), and the special form
`typing.Union`. -/
inductive PyObj
  | noneV
  | noneTypeCls
  | cls (name : String)
  | unionForm
deriving DecidableEq, Repr

/-- A member of a (flattened) union annotation: a plain class or `NoneType`.
Python's `typing` machinery guarantees union arguments have this shape. -/
inductive PyAnnBase
  | atom (name : String)
  | noneType
deriving DecidableEq, Repr

/-- A resolved field annotation: either a plain type or `typing.Union[...]`
over flattened members. -/
inductive PyAnn
  | base (b : PyAnnBase)
  | union (args : List PyAnnBase)
deriving DecidableEq, Repr

/-- The runtime object denoted by a union member (always a class). -/
def PyAnnBase.toObj : PyAnnBase → PyObj
  | .atom n => .cls n
  | .noneType => .noneTypeCls

/-- `typing.get_origin`: `typing.Union` for a union annotation, `None`
(absent) for a plain class. -/
def PyAnn.getOrigin : PyAnn → Option PyObj
  | .base _ => none
  | .union _ => some .unionForm

/-- The test `typing.get_origin(ann) is typing.Union`. -/
def PyAnn.originIsUnion (a : PyAnn) : Bool := a.getOrigin = some PyObj.unionForm

/-- `typing.get_args`: the tuple of argument type objects of a union,
empty for a plain class. -/
def PyAnn.getArgs : PyAnn → List PyObj
  | .base _ => []
  | .union args => args.map PyAnnBase.toObj

/-- The slice of a pydantic `FieldInfo` the codec reads: whether the field
carries a default (or default factory), and its resolved annotation.
In pydantic v2 a field is required iff it has no default; an
`Optional[...]` annotation alone does not make a field defaulted. -/
structure FieldInfo where
  hasDefault : Bool
  ann : PyAnn
deriving DecidableEq, Repr

/-- `FieldInfo.is_required()` from pydantic: no default means required. -/
def FieldInfo.is_required (f : FieldInfo) : Bool := !f.hasDefault

/-- `_check_field_is_nullable` from `filters/callback_data.py`:

`not field.is_required() or (get_origin(field.annotation) is typing.Union
and None in get_args(field.annotation))`.

The membership test compares the value `None` against the classes returned
by `get_args` (e.g. `NoneType`), so it can never succeed. -/
def filtersCheckFieldIsNullable (f : FieldInfo) : Bool :=
  !f.is_required || (f.ann.originIsUnion && f.ann.getArgs.contains PyObj.noneV)

/-- `_check_field_is_nullable` from `callback_data.py`:

`if not field.is_required(): return True` then
`return get_origin(...) in get_args(...) if get_origin(...) is typing.Union
else False`.

Under the guard the origin is the special form `typing.Union`, which never
occurs among union arguments, so the membership can never succeed. -/
def cbdCheckFieldIsNullable (f : FieldInfo) : Bool :=
  if !f.is_required then true
  else if f.ann.originIsUnion then
    match f.ann.getOrigin with
    | some o => f.ann.getArgs.contains o
    | none => false
  else false

/-- Modelled from the spec: "`nullable: bool` (true if the field has a
default or its declared type is optional/union-with-none)".  This is the
nullability notion the spec prescribes, used to compare against the two
implementations above. -/
def specNullable (f : FieldInfo) : Bool :=
  f.hasDefault ||
    (match f.ann with
     | .union args => args.contains PyAnnBase.noneType
     | .base _ => false)

theorem toObj_ne_noneV (b : PyAnnBase) : b.toObj ≠ PyObj.noneV := by
  cases b <;> simp [PyAnnBase.toObj]

theorem toObj_ne_unionForm (b : PyAnnBase) : b.toObj ≠ PyObj.unionForm := by
  cases b <;> simp [PyAnnBase.toObj]

theorem noneV_not_mem_getArgs (a : PyAnn) : PyObj.noneV ∉ a.getArgs := by
  cases a with
  | base b => simp [PyAnn.getArgs]
  | union args =>
    simp only [PyAnn.getArgs]
    intro hmem
    rcases List.mem_map.1 hmem with ⟨b, _, hb⟩
    exact toObj_ne_noneV b hb

theorem unionForm_not_mem_getArgs (a : PyAnn) : PyObj.unionForm ∉ a.getArgs := by
  cases a with
  | base b => simp [PyAnn.getArgs]
  | union args =>
    simp only [PyAnn.getArgs]
    intro hmem
    rcases List.mem_map.1 hmem with ⟨b, _, hb⟩
    exact toObj_ne_unionForm b hb

theorem getArgs_not_contains_noneV (a : PyAnn) :
    a.getArgs.contains PyObj.noneV = false := by
  rw [Bool.eq_false_iff]
  intro hc
  exact noneV_not_mem_getArgs a (List.elem_iff.1 hc)

theorem getArgs_not_contains_unionForm (a : PyAnn) :
    a.getArgs.contains PyObj.unionForm = false := by
  rw [Bool.eq_false_iff]
  intro hc
  exact unionForm_not_mem_getArgs a (List.elem_iff.1 hc)

/-- Both shipped nullable checks reduce extensionally to "the field has a
default": the union clauses of both are dead code. -/
theorem filtersCheck_eq_hasDefault (f : FieldInfo) :
    filtersCheckFieldIsNullable f = f.hasDefault := by
  simp only [filtersCheckFieldIsNullable, FieldInfo.is_required, Bool.not_not,
    getArgs_not_contains_noneV, Bool.and_false, Bool.or_false]

theorem cbdCheck_eq_hasDefault (f : FieldInfo) :
    cbdCheckFieldIsNullable f = f.hasDefault := by
  unfold cbdCheckFieldIsNullable
  cases hd : f.hasDefault with
  | true => simp [FieldInfo.is_required, hd]
  | false =>
    simp only [FieldInfo.is_required, hd, Bool.not_false, Bool.not_true, if_false]
    cases ha : f.ann.originIsUnion with
    | false => simp [ha]
    | true =>
      simp only [ha, if_true]
      cases ho : f.ann.getOrigin with
      | none => rfl
      | some o =>
        have hou : o = PyObj.unionForm := by
          have h2 := ha
          unfold PyAnn.originIsUnion at h2
          rw [ho] at h2
          simpa using h2
        subst hou
        exact getArgs_not_contains_unionForm f.ann

/-! ## Python strings

Python `str` values are modelled as lists of characters.  The codec's
separator is modelled as a single character: the class keyword defaults it
to `":"` and every schema in the modelled universe uses a one-character
separator, which is what `str.split` / `str.join` are exercised with. -/

/-- A Python string. -/
abbrev PyStr := List Char

/-- `len(s.encode())`: the UTF-8 byte length of a string. -/
def utf8Len (s : PyStr) : Nat := (s.map Char.utf8Size).sum

/-- Python `raw.split(sep)` for a one-character separator `sep`.  Always
returns at least one (possibly empty) token; `"".split(sep) == [""]`. -/
def splitOnC (sep : Char) : PyStr → List PyStr
  | [] => [[]]
  | c :: rest =>
    match splitOnC sep rest with
    | [] => [[]]
    | r :: rs => if c = sep then [] :: r :: rs else (c :: r) :: rs

/-- Python `sep.join(parts)` for a one-character separator. -/
def joinWith (sep : Char) : List PyStr → PyStr
  | [] => []
  | [p] => p
  | p :: ps => p ++ sep :: joinWith sep ps

/-! ## Decimal rendering and parsing

`str(int)` renders the canonical decimal form (most significant digit
first, no leading zeroes, `"0"` for zero, a leading `-` for negatives).
Parsing models the string-to-int coercion pydantic applies to tokens,
restricted to decimal digit strings with an optional leading sign. -/

/-- Digit extraction with explicit fuel (so that evaluation is
structural); the fuel never runs out when it starts at the number
itself. -/
def natDigsGo : Nat → Nat → List Nat
  | _, 0 => []
  | 0, _ + 1 => []
  | fuel + 1, n + 1 => natDigsGo fuel ((n + 1) / 10) ++ [(n + 1) % 10]

/-- The decimal digits of a natural number, most significant first;
empty for `0`. -/
def natDigs (n : Nat) : List Nat := natDigsGo n n

/-- The character of a decimal digit. -/
def digitChar (d : Nat) : Char := Char.ofNat (48 + d)

/-- `str(n)` for a natural number. -/
def natStr (n : Nat) : PyStr := if n = 0 then ['0'] else (natDigs n).map digitChar

/-- `str(i)` for a Python integer. -/
def intStr (i : Int) : PyStr :=
  if i < 0 then '-' :: natStr i.natAbs else natStr i.toNat

/-- The value of a decimal digit character, if it is one. -/
def digitVal (c : Char) : Option Nat :=
  if 48 ≤ c.toNat ∧ c.toNat ≤ 57 then some (c.toNat - 48) else none

/-- Left-to-right accumulation of decimal digits. -/
def parseNatGo (acc : Nat) : PyStr → Option Nat
  | [] => some acc
  | c :: cs =>
    match digitVal c with
    | some d => parseNatGo (10 * acc + d) cs
    | none => none

/-- Parse a non-empty string of decimal digits. -/
def parseNat : PyStr → Option Nat
  | [] => none
  | s => parseNatGo 0 s

/-- Coercion of a token to an integer (pydantic lax `str -> int`,
modelled on decimal digit strings with an optional leading `-`). -/
def parseInt (s : PyStr) : Option Int :=
  if s.headD ' ' = '-' then (parseNat s.tail).map (fun n => -(n : Int))
  else (parseNat s).map (fun n => (n : Int))

/-- Coercion of a token to a boolean (pydantic lax `str -> bool`); the
model covers the forms the codec itself emits (`"1"` / `"0"`) plus the
word forms; pydantic's further synonyms are not needed by any theorem. -/
def parseBool (s : PyStr) : Option Bool :=
  if s = ['1'] ∨ s = ['t', 'r', 'u', 'e'] then some true
  else if s = ['0'] ∨ s = ['f', 'a', 'l', 's', 'e'] then some false
  else none

/-- Hexadecimal digit extraction with explicit fuel; see `natDigsGo`. -/
def hexDigsGo : Nat → Nat → List Nat
  | _, 0 => []
  | 0, _ + 1 => []
  | fuel + 1, n + 1 => hexDigsGo fuel ((n + 1) / 16) ++ [(n + 1) % 16]

/-- The hexadecimal digits of a natural number, most significant first;
empty for `0`. -/
def hexDigs (n : Nat) : List Nat := hexDigsGo n n

/-- The lowercase character of a hexadecimal digit. -/
def hexDigitChar (d : Nat) : Char :=
  if d < 10 then Char.ofNat (48 + d) else Char.ofNat (87 + d)

/-- `UUID.hex`: the 128-bit integer of the UUID rendered as `'%032x'`,
zero-padded lowercase hexadecimal with no hyphens. -/
def uuidHex (n : Nat) : PyStr :=
  let ds := (hexDigs n).map hexDigitChar
  List.replicate (32 - ds.length) '0' ++ ds

/-! ### Round-trip facts about the string machinery -/

theorem splitOnC_cons (sep c : Char) (rest : PyStr) :
    splitOnC sep (c :: rest) =
      match splitOnC sep rest with
      | [] => [[]]
      | r :: rs => if c = sep then [] :: r :: rs else (c :: r) :: rs := rfl

theorem splitOnC_ne_nil (sep : Char) (s : PyStr) : splitOnC sep s ≠ [] := by
  cases s with
  | nil => simp [splitOnC]
  | cons c rest =>
    rw [splitOnC_cons]
    cases h : splitOnC sep rest with
    | nil => simp
    | cons r rs =>
      by_cases hc : c = sep <;> simp [hc]

/-- Splitting a string that does not contain the separator returns it
whole. -/
theorem splitOnC_of_not_contains (sep : Char) (s : PyStr) (h : sep ∉ s) :
    splitOnC sep s = [s] := by
  induction s with
  | nil => rfl
  | cons c rest ih =>
    have hc : c ≠ sep := fun hcs => h (hcs ▸ List.mem_cons_self c rest)
    have hrest : sep ∉ rest := fun hr => h (List.mem_cons_of_mem c hr)
    rw [splitOnC_cons, ih hrest]
    simp [hc]

/-- Splitting starts at the leftmost separator occurrence: a separator-free
piece followed by a separator splits off as the first token. -/
theorem splitOnC_append (sep : Char) (p rest : PyStr) (h : sep ∉ p) :
    splitOnC sep (p ++ sep :: rest) = p :: splitOnC sep rest := by
  induction p with
  | nil =>
    rw [List.nil_append, splitOnC_cons]
    cases hr : splitOnC sep rest with
    | nil => exact absurd hr (splitOnC_ne_nil sep rest)
    | cons r rs => simp
  | cons c p ih =>
    have hc : c ≠ sep := fun hcs => h (hcs ▸ List.mem_cons_self c p)
    have hp : sep ∉ p := fun hm => h (List.mem_cons_of_mem c hm)
    rw [List.cons_append, splitOnC_cons, ih hp]
    simp [hc]

/-- `split` is a left inverse of `join` when no part contains the
separator. -/
theorem splitOnC_joinWith (sep : Char) (parts : List PyStr)
    (hne : parts ≠ []) (h : ∀ p ∈ parts, sep ∉ p) :
    splitOnC sep (joinWith sep parts) = parts := by
  induction parts with
  | nil => exact absurd rfl hne
  | cons p ps ih =>
    cases ps with
    | nil =>
      simp only [joinWith]
      exact splitOnC_of_not_contains sep p (h p (List.mem_cons_self p []))
    | cons q qs =>
      have hjoin : joinWith sep (p :: q :: qs) = p ++ sep :: joinWith sep (q :: qs) := rfl
      rw [hjoin, splitOnC_append sep p _ (h p (List.mem_cons_self p _)),
        ih (by simp) (fun r hr => h r (List.mem_cons_of_mem p hr))]

theorem natDigs_zero : natDigs 0 = [] := rfl

theorem natDigsGo_eq (n : Nat) :
    ∀ fuel, n ≤ fuel → natDigsGo fuel n = natDigsGo n n := by
  induction n using Nat.strong_induction_on with
  | _ n ih =>
    intro fuel hle
    cases n with
    | zero => cases fuel <;> rfl
    | succ m =>
      cases fuel with
      | zero => omega
      | succ f =>
        have hq : (m + 1) / 10 < m + 1 := Nat.div_lt_self (Nat.succ_pos m) (by omega)
        show natDigsGo f ((m + 1) / 10) ++ [(m + 1) % 10] =
          natDigsGo m ((m + 1) / 10) ++ [(m + 1) % 10]
        rw [ih _ hq f (by omega), ih _ hq m (by omega)]

theorem natDigs_succ (n : Nat) :
    natDigs (n + 1) = natDigs ((n + 1) / 10) ++ [(n + 1) % 10] := by
  show natDigsGo n ((n + 1) / 10) ++ [(n + 1) % 10] = _
  rw [natDigsGo_eq ((n + 1) / 10) n
    (by omega : (n + 1) / 10 ≤ n)]
  rfl

theorem natDigs_lt (n : Nat) : ∀ d ∈ natDigs n, d < 10 := by
  induction n using Nat.strong_induction_on with
  | _ n ih =>
    cases n with
    | zero => intro d hd; simp [natDigs_zero] at hd
    | succ m =>
      intro d hd
      rw [natDigs_succ] at hd
      rcases List.mem_append.1 hd with h1 | h2
      · exact ih ((m + 1) / 10) (Nat.div_lt_self (Nat.succ_pos m) (by omega)) d h1
      · simp at h2
        subst h2
        exact Nat.mod_lt _ (by omega)

theorem natDigs_ne_nil (n : Nat) (h : n ≠ 0) : natDigs n ≠ [] := by
  cases n with
  | zero => exact absurd rfl h
  | succ m => rw [natDigs_succ]; simp

theorem parseNatGo_cons (acc : Nat) (c : Char) (cs : PyStr) :
    parseNatGo acc (c :: cs) =
      match digitVal c with
      | some d => parseNatGo (10 * acc + d) cs
      | none => none := rfl

theorem parseNatGo_append (acc : Nat) (xs ys : PyStr) :
    parseNatGo acc (xs ++ ys) = (parseNatGo acc xs).bind (fun a => parseNatGo a ys) := by
  induction xs generalizing acc with
  | nil => rfl
  | cons c cs ih =>
    rw [List.cons_append, parseNatGo_cons, parseNatGo_cons]
    cases hdv : digitVal c with
    | none => simp
    | some d => simpa using ih (10 * acc + d)

theorem digitVal_digitChar (d : Nat) (h : d < 10) :
    digitVal (digitChar d) = some d := by
  interval_cases d <;> decide

theorem digitChar_ne_minus (d : Nat) (h : d < 10) : digitChar d ≠ '-' := by
  interval_cases d <;> decide

theorem parseNatGo_natDigs (n : Nat) :
    ∀ acc, parseNatGo acc ((natDigs n).map digitChar) =
      some (acc * 10 ^ (natDigs n).length + n) := by
  induction n using Nat.strong_induction_on with
  | _ n ih =>
    cases n with
    | zero => intro acc; simp [natDigs_zero, parseNatGo]
    | succ m =>
      intro acc
      have hq : (m + 1) / 10 < m + 1 := Nat.div_lt_self (Nat.succ_pos m) (by omega)
      rw [natDigs_succ, List.map_append, parseNatGo_append, ih _ hq]
      have hr : (m + 1) % 10 < 10 := Nat.mod_lt _ (by omega)
      simp only [Option.bind_some, List.map_cons, List.map_nil, parseNatGo,
        digitVal_digitChar _ hr, List.length_append, List.length_cons, List.length_nil]
      have hdm : 10 * ((m + 1) / 10) + (m + 1) % 10 = m + 1 := Nat.div_add_mod (m + 1) 10
      rw [Nat.zero_add, pow_succ, ← Nat.mul_assoc, Option.some_bind]
      congr 1
      generalize acc * 10 ^ (natDigs ((m + 1) / 10)).length = A
      omega

theorem parseNat_natStr (n : Nat) : parseNat (natStr n) = some n := by
  cases hn : n with
  | zero => decide
  | succ m =>
    have hne : natDigs (m + 1) ≠ [] := natDigs_ne_nil _ (by omega)
    have : natStr (m + 1) = (natDigs (m + 1)).map digitChar := by
      simp [natStr]
    rw [this]
    cases hd : (natDigs (m + 1)).map digitChar with
    | nil => exact absurd (List.map_eq_nil_iff.1 hd) hne
    | cons c cs =>
      have hgo := parseNatGo_natDigs (m + 1) 0
      rw [hd] at hgo
      rw [show parseNat (c :: cs) = parseNatGo 0 (c :: cs) from rfl, hgo]
      simp

theorem natStr_ne_nil (n : Nat) : natStr n ≠ [] := by
  by_cases h : n = 0
  · simp [natStr, h]
  · simp only [natStr, h, if_false]
    intro hm
    exact natDigs_ne_nil n h (List.map_eq_nil_iff.1 hm)

theorem natStr_head_ne_minus (n : Nat) : (natStr n).headD ' ' ≠ '-' := by
  cases hs : natStr n with
  | nil => exact absurd hs (natStr_ne_nil n)
  | cons c cs =>
    have hc : c ∈ natStr n := hs ▸ List.mem_cons_self c cs
    have hcne : c ≠ '-' := by
      unfold natStr at hc
      by_cases h : n = 0
      · simp [h] at hc
        subst hc
        decide
      · simp [h] at hc
        rcases hc with ⟨d, hd, hdc⟩
        exact hdc ▸ digitChar_ne_minus d (natDigs_lt n d hd)
    simpa [hs] using hcne

/-- `str -> int` coercion inverts `str(int)`. -/
theorem parseInt_intStr (i : Int) : parseInt (intStr i) = some i := by
  by_cases hneg : i < 0
  · have h1 : intStr i = '-' :: natStr i.natAbs := by simp [intStr, hneg]
    rw [h1]
    simp [parseInt, parseNat_natStr]
    rw [abs_of_neg hneg, neg_neg]
  · have h1 : intStr i = natStr i.toNat := by simp [intStr, hneg]
    have h2 : ((i.toNat : ℤ)) = i := by omega
    rw [h1]
    simp only [parseInt]
    rw [if_neg (natStr_head_ne_minus i.toNat), parseNat_natStr]
    simp [h2]

/-! ## The value encoders (`CallbackData._encode_value`)

`RVal` models the Python runtime values a caller can hand the encoder.
`venum cls s` is a member of an `Enum` *subclass* named `cls` whose
underlying value prints as `s` (`str(member.value) == s`); `Enum` itself
has no members, so a member's runtime type is always the concrete
subclass.  `vfloat` / `vdecimal` / `vfraction` carry the string `str(v)`
renders (their numeric structure is irrelevant to the encoders).
`vother cls` is a value of any other runtime type named `cls`. -/
inductive RVal
  | vnone
  | venum (clsName : String) (scalarStr : PyStr)
  | vuuid (n : Nat)
  | vbool (b : Bool)
  | vint (n : Int)
  | vstr (s : PyStr)
  | vfloat (rep : PyStr)
  | vdecimal (rep : PyStr)
  | vfraction (rep : PyStr)
  | vother (clsName : String)
deriving DecidableEq, Repr

/-- `_encode_value` from `filters/callback_data.py`: after the `None`
check it looks up `type(value)` in the dict
`{Enum: .., UUID: .., bool: .., int: .., str: .., float: .., Decimal: ..,
Fraction: ..}` and raises `ValueError` on a `KeyError`.  Because the dict
is keyed by the *exact* runtime type, the `Enum` entry is dead code: an
enum member's type is its concrete subclass, never `Enum` itself, so enum
members (and instances of any other subclass of the listed types) miss
the dict and raise.  `none` models the `ValueError`
("can not be packed to callback data"). -/
def encodeValueFilters : RVal → Option PyStr
  | .vnone => some []
  | .vuuid n => some (uuidHex n)
  | .vbool b => some (if b then ['1'] else ['0'])
  | .vint n => some (intStr n)
  | .vstr s => some s
  | .vfloat rep => some rep
  | .vdecimal rep => some rep
  | .vfraction rep => some rep
  | .venum _ _ => none
  | .vother _ => none

/-- `_encode_value` from `callback_data.py`: an `isinstance` chain in the
order `None`, `Enum`, `UUID`, `bool`, `int | str | float | Decimal |
Fraction`, raising `ValueError` otherwise.  Enum members (including
`IntEnum` members, which are also `int` instances) hit the `Enum` branch
first; `True`/`False` hit the `bool` branch before the `int` branch. -/
def encodeValueCbd : RVal → Option PyStr
  | .vnone => some []
  | .venum _ s => some s
  | .vuuid n => some (uuidHex n)
  | .vbool b => some (if b then ['1'] else ['0'])
  | .vint n => some (intStr n)
  | .vstr s => some s
  | .vfloat rep => some rep
  | .vdecimal rep => some rep
  | .vfraction rep => some rep
  | .vother _ => none

/-- The runtime values `model_dump(mode="json")` can produce: JSON
scalars.  `pack` only ever feeds these to `_encode_value` (pydantic's
JSON mode serialises enums to their values, UUIDs and Decimals to
strings, and so on). -/
def RVal.isJsonScalar : RVal → Prop
  | .vnone => True
  | .vbool _ => True
  | .vint _ => True
  | .vstr _ => True
  | .vfloat _ => True
  | _ => False

/-! ## Schemas and instances

The modelled universe of schemas: a prefix string, a one-character
separator (the class keyword defaults to `":"`), and an ordered list of
fields whose declared annotations are `int`, `str`, `bool` or
`Optional`/union-with-`None` of one of those, with or without a default.
Instances hold values conforming to the declared annotations. -/

/-- A field value of a schema instance (also the shape `model_dump
(mode="json")` returns for these annotations, on which the dump is the
identity). -/
inductive PVal
  | pnone
  | pbool (b : Bool)
  | pint (n : Int)
  | pstr (s : PyStr)
deriving DecidableEq, Repr

/-- The JSON-dumped runtime value of a field value. -/
def PVal.toR : PVal → RVal
  | .pnone => .vnone
  | .pbool b => .vbool b
  | .pint n => .vint n
  | .pstr s => .vstr s

/-- A base declared type. -/
inductive FBase
  | fint
  | fstr
  | fbool
deriving DecidableEq, Repr

/-- A declared field annotation: the base type plain, or in a union with
`None` (`Optional[...]` / `X | None`). -/
inductive FTy
  | plain (b : FBase)
  | opt (b : FBase)
deriving DecidableEq, Repr

/-- The Python class name of a base type. -/
def FBase.pyName : FBase → String
  | .fint => "int"
  | .fstr => "str"
  | .fbool => "bool"

/-- The `typing` annotation a declared type resolves to. -/
def FTy.ann : FTy → PyAnn
  | .plain b => .base (.atom b.pyName)
  | .opt b => .union [.atom b.pyName, .noneType]

/-- One declared field of a schema: name, annotation and whether it has a
default. -/
structure FieldSpec where
  fname : PyStr
  ty : FTy
  hasDefault : Bool
deriving DecidableEq, Repr

/-- The pydantic `FieldInfo` of a declared field. -/
def FieldSpec.info (f : FieldSpec) : FieldInfo :=
  { hasDefault := f.hasDefault, ann := f.ty.ann }

/-- A callback-data schema: `__prefix__`, `__separator__` and the ordered
declared fields (`model_fields`). -/
structure Schema where
  pfx : PyStr
  sep : Char
  fields : List FieldSpec
deriving DecidableEq, Repr

/-- A value conforms to a base declared type. -/
def conformsB : FBase → PVal → Bool
  | .fint, .pint _ => true
  | .fstr, .pstr _ => true
  | .fbool, .pbool _ => true
  | _, _ => false

/-- A value conforms to a declared annotation (`None` is admitted exactly
by the optional annotations). -/
def conforms : FTy → PVal → Bool
  | .plain b, v => conformsB b v
  | .opt b, v => (v = PVal.pnone) || conformsB b v

/-! ## `pack` -/

/-- `MAX_CALLBACK_LENGTH`, the module-level constant both files define. -/
def MAX_CALLBACK_LENGTH : Nat := 64

/-- The `ValueError`s `pack` raises, in the order the code checks them:
a value `_encode_value` rejects, an encoded value containing the
separator, and a joined result longer than 64 UTF-8 bytes. -/
inductive PackErr
  | unencodable
  | sepCollision
  | tooLong
deriving DecidableEq, Repr

/-- `CallbackData.pack`, parameterised by the value encoder (the method
is textually identical in the two files; only `_encode_value` differs).
It walks `model_dump(mode="json")` in field order, encodes each value,
rejects an encoded value containing the separator, joins
`[prefix] + encoded` with the separator, and rejects a result whose
UTF-8 byte length exceeds `MAX_CALLBACK_LENGTH`. -/
def packWith (enc : RVal → Option PyStr) (sc : Schema) (vs : List PVal) :
    Except PackErr PyStr := do
  let encs ← vs.mapM (fun v =>
    match enc v.toR with
    | some e =>
      if e.contains sc.sep then
        Except.error PackErr.sepCollision
      else
        Except.ok e
    | none => Except.error PackErr.unencodable)
  let callbackData := joinWith sc.sep (sc.pfx :: encs)
  if MAX_CALLBACK_LENGTH < utf8Len callbackData then
    Except.error PackErr.tooLong
  else
    Except.ok callbackData

/-- `pack` of `filters/callback_data.py`. -/
def packF : Schema → List PVal → Except PackErr PyStr := packWith encodeValueFilters

/-- `pack` of `callback_data.py`. -/
def packC : Schema → List PVal → Except PackErr PyStr := packWith encodeValueCbd

/-! ## `unpack` -/

/-- The exceptions `unpack` raises: `TypeError` on an argument-count
mismatch, `ValueError` on a bad prefix, and pydantic's `ValidationError`
(a `ValueError` subclass) when the constructor rejects the payload. -/
inductive UnpackErr
  | arity (expected got : Nat)
  | badPfx
  | invalidPayload
deriving DecidableEq, Repr

/-- The Python exception class an `unpack` error is raised as. -/
def UnpackErr.pyClass : UnpackErr → String
  | .arity _ _ => "TypeError"
  | .badPfx => "ValueError"
  | .invalidPayload => "ValueError"

/-- pydantic coercion of a raw string token to a base declared type
(lax mode: digit strings to `int`, the documented forms to `bool`,
strings pass through to `str`). -/
def coerceBase : FBase → PyStr → Option PVal
  | .fint, t => (parseInt t).map PVal.pint
  | .fstr, t => some (PVal.pstr t)
  | .fbool, t => (parseBool t).map PVal.pbool

/-- pydantic validation of one payload entry against a declared
annotation: an explicit `None` is accepted only by the optional
annotations; a string is coerced to the base type. -/
def validateField : FTy → Option PyStr → Option PVal
  | .plain b, some t => coerceBase b t
  | .plain _, none => none
  | .opt _, none => some PVal.pnone
  | .opt b, some t => coerceBase b t

/-- `CallbackData.unpack`, parameterised by the nullable check (the two
files differ only in which `_check_field_is_nullable` they call and in
loop style).  `prefix, *parts = str(value).split(sep)`; arity is checked
before the prefix; an empty token of a nullable field is replaced by
`None`; the payload then goes through the model constructor. -/
def unpackWith (nullable : FieldInfo → Bool) (sc : Schema) (input : PyStr) :
    Except UnpackErr (List PVal) :=
  let tokens := splitOnC sc.sep input
  let parts := tokens.tail
  if parts.length ≠ sc.fields.length then
    Except.error (UnpackErr.arity sc.fields.length parts.length)
  else if tokens.headD [] ≠ sc.pfx then
    Except.error UnpackErr.badPfx
  else
    let payload := (sc.fields.zip parts).map (fun p =>
      if p.2 = [] ∧ nullable p.1.info then none else some p.2)
    match (sc.fields.zip payload).mapM (fun p => validateField p.1.ty p.2) with
    | some vs => Except.ok vs
    | none => Except.error UnpackErr.invalidPayload

/-- `unpack` of `filters/callback_data.py`. -/
def unpackF : Schema → PyStr → Except UnpackErr (List PVal) :=
  unpackWith filtersCheckFieldIsNullable

/-- `unpack` of `callback_data.py`. -/
def unpackC : Schema → PyStr → Except UnpackErr (List PVal) :=
  unpackWith cbdCheckFieldIsNullable

/-! ## `CallbackQueryFilter.__call__`

The dispatched update and the filter evaluation.  `query.data` is falsy
when it is `None` or the empty string; `except (TypeError, ValueError)`
catches exactly those exception classes (pydantic's `ValidationError`
subclasses `ValueError`).  The result is `False` (no match) or the dict
`{"callback_data": instance}`; an uncaught exception is modelled as the
`Except.error` case. -/

/-- The slice of the dispatched update the filter reads: whether the
object is a `CallbackQuery` at all, and its `data` payload. -/
structure CbQuery where
  isCb : Bool
  qdata : Option PyStr
deriving DecidableEq, Repr

/-- `CallbackQueryFilter.__call__` over a schema and an optional magic
rule (`rule.resolve` abstracted as a predicate on the decoded instance).
Returns `ok none` for `False`, `ok (some (key, instance))` for the match
dict, and `error e` if an exception would propagate to the dispatcher. -/
def filterCall (sc : Schema) (rule : Option (List PVal → Bool)) (q : CbQuery) :
    Except UnpackErr (Option (String × List PVal)) :=
  if !q.isCb then Except.ok none
  else
    match q.qdata with
    | none => Except.ok none
    | some d =>
      if d = [] then Except.ok none
      else
        match unpackC sc d with
        | Except.error e =>
          if e.pyClass = "TypeError" ∨ e.pyClass = "ValueError" then
            Except.ok none
          else
            Except.error e
        | Except.ok inst =>
          match rule with
          | none => Except.ok (some ("callback_data", inst))
          | some r =>
            if r inst then Except.ok (some ("callback_data", inst))
            else Except.ok none

/-! ## `InlineKeyboardBuilder` (`keyboard.py`)

Buttons are modelled by their runtime class name plus an identity; the
builder's `isinstance` test is modelled as agreement of the class name
with the builder's declared button type. -/

/-- A button object: its runtime class name and an identity tag. -/
structure Btn where
  cls : String
  bid : Nat
deriving DecidableEq, Repr

/-- `InlineKeyboardBuilder` state: the declared button type and the
current grid. -/
structure Builder where
  btype : String
  grid : List (List Btn)
deriving DecidableEq, Repr

/-- Class constants `max_width = 8`, `min_width = 1`, `max_buttons = 100`. -/
def max_width : Nat := 8

/-- See `max_width`. -/
def min_width : Nat := 1

/-- See `max_width`. -/
def max_buttons : Nat := 100

/-- `isinstance(button, self._button_type)`, with classes identified by
name. -/
def isInst (b : Btn) (t : String) : Bool := b.cls = t

/-- `_validate_button`: raises `ValueError` ("should be type ...") if the
button is not an instance of the declared type; otherwise returns `None`
(modelled as `Unit`). -/
def validate_button (t : String) (b : Btn) : Except String Unit :=
  if isInst b t then Except.ok () else Except.error "TypeMismatch"

/-- `_validate_buttons`: `all(map(self._validate_button, buttons))`.
`map` is lazy and `_validate_button` returns `None`; `all` evaluates the
first mapped element (validating only the first button), sees the falsy
`None`, and short-circuits to `False` without touching the remaining
buttons.  On an empty tuple `all` returns `True`. -/
def validate_buttons (t : String) : List Btn → Except String Bool
  | [] => Except.ok true
  | b :: _ => do
    let _ ← validate_button t b
    Except.ok false

/-- `_validate_size`: `ValueError` unless the size lies in
`range(min_width, max_width + 1)` (the int-ness check is absorbed by the
`Nat` model). -/
def validate_size (w : Nat) : Except String Unit :=
  if min_width ≤ w ∧ w ≤ max_width then Except.ok () else Except.error "InvalidWidth"

/-- `buttons[: w], buttons[w :]` chunking used by `add` and `row`
(`range(0, len(buttons), width)` slicing).  The fuel argument is the list
length; one chunk consumes at least one button whenever `w ≥ 1`, which
every call site guarantees. -/
def chunksGo (w : Nat) : Nat → List Btn → List (List Btn)
  | _, [] => []
  | 0, bs => [bs]
  | fuel + 1, bs => bs.take w :: chunksGo w fuel (bs.drop w)

/-- Slice a button list into rows of `w` (last row possibly shorter). -/
def chunks (w : Nat) (l : List Btn) : List (List Btn) := chunksGo w l.length l

/-- `InlineKeyboardBuilder.add`: fills the last row up to `max_width`,
then appends rows of `max_width`.  The method performs no type check and
no button-count check. -/
def addOp (st : Builder) (btns : List Btn) : Builder :=
  let m := st.grid
  if m ≠ [] ∧ (m.getLastD []).length < max_width then
    let lastRow := m.getLastD []
    let pos := max_width - lastRow.length
    { st with grid := m.dropLast ++ [lastRow ++ btns.take pos] ++ chunks max_width (btns.drop pos) }
  else
    { st with grid := m ++ chunks max_width btns }

/-- `InlineKeyboardBuilder.row`: validates the width and the buttons
(via the short-circuiting `_validate_buttons`), then extends the grid
with fresh rows of `width`. -/
def rowOp (st : Builder) (btns : List Btn) (width : Option Nat) :
    Except String Builder := do
  let w := width.getD max_width
  let _ ← validate_size w
  let _ ← validate_buttons st.btype btns
  Except.ok { st with grid := st.grid ++ chunks w btns }

/-- The value `next(sizes_iter)` yields at the i-th call:
`cycle(sizes)` when `repeat` is true, else `chain(sizes,
cycle([sizes[-1]]))`.  `sizes` is never empty (`sizes or (max_width,)`). -/
def sizeAt (sizes : List Nat) (rep : Bool) (i : Nat) : Nat :=
  if rep then sizes.getD (i % sizes.length) 0
  else if i < sizes.length then sizes.getD i 0
  else sizes.getLastD 0

/-- The `for button in self.buttons` loop of `adjust`.  `next(sizes_iter)`
sits inside the loop body, so one size is consumed per *button*; `i`
counts the buttons seen so far. -/
def adjustGo (sizes : List Nat) (rep : Bool) :
    List Btn → Nat → List (List Btn) → List Btn → List (List Btn)
  | [], _, markup, row => if row ≠ [] then markup ++ [row] else markup
  | b :: bs, i, markup, row =>
    if row.length ≥ sizeAt sizes rep i then
      adjustGo sizes rep bs (i + 1) (markup ++ [row]) [b]
    else
      adjustGo sizes rep bs (i + 1) markup (row ++ [b])

/-- `InlineKeyboardBuilder.adjust`: re-flows all held buttons (row-major
order, `chain.from_iterable`) into the grid built by `adjustGo`. -/
def adjustOp (st : Builder) (sizes : List Nat) (rep : Bool) : Builder :=
  let szs := if sizes = [] then [max_width] else sizes
  { st with grid := adjustGo szs rep st.grid.flatten 0 [] [] }

/-- Total button count of a grid (`sum(len(row) for row in markup)`). -/
def totalButtons (st : Builder) : Nat := (st.grid.map List.length).sum

/-! ## `ChatActionSender` (`chat_action.py`)

Only the start/stop protocol is modelled: `running` is `bool(self._task)`
(a task object is always truthy, so this is "`_task` is not `None`"),
and `_run` / `_stop` execute under the instance lock, so each is one
atomic step on the state. -/

/-- The sender state the start/stop protocol reads and writes. -/
structure SenderState where
  taskSome : Bool
  closeEventSet : Bool
  closedEventSet : Bool
deriving DecidableEq, Repr

/-- `ChatActionSender.running`: `bool(self._task)`. -/
def running (s : SenderState) : Bool := s.taskSome

/-- `ChatActionSender._run`: clears both events, then raises
`RuntimeError("Already running")` if running, else spawns the worker
task. -/
def runOp (s : SenderState) : Except String SenderState :=
  let s1 := { s with closeEventSet := false, closedEventSet := false }
  if running s1 then Except.error "Already running"
  else Except.ok { s1 with taskSome := true }

/-- `ChatActionSender._stop`: returns immediately when not running;
otherwise sets the close event, waits until the worker's `finally` block
sets the closed event, and drops the task.  The wait is folded into the
same step (the worker observes the close event and terminates). -/
def stopOp (s : SenderState) : SenderState :=
  if !running s then s
  else if !s.closeEventSet then
    { s with closeEventSet := true, closedEventSet := true, taskSome := false }
  else
    { s with taskSome := false }

/-! ## Helper lemmas shared by the claim proofs -/

/-- The encoded string of a field value of the modelled universe (what
either `_encode_value` returns on the JSON dump of the value). -/
def pvEnc : PVal → PyStr
  | .pnone => []
  | .pbool b => if b then ['1'] else ['0']
  | .pint n => intStr n
  | .pstr s => s

/-- The joined callback string of an instance, before the length check. -/
def packedStr (sc : Schema) (vs : List PVal) : PyStr :=
  joinWith sc.sep (sc.pfx :: vs.map pvEnc)

theorem encodeValueCbd_toR (v : PVal) : encodeValueCbd v.toR = some (pvEnc v) := by
  cases v <;> rfl

theorem encodeValueFilters_toR (v : PVal) : encodeValueFilters v.toR = some (pvEnc v) := by
  cases v <;> rfl

theorem contains_eq_false_of_not_mem {l : PyStr} {c : Char} (h : c ∉ l) :
    l.contains c = false := by
  rw [Bool.eq_false_iff]
  intro hc
  exact h (List.elem_iff.1 hc)

theorem intStr_ne_nil (i : Int) : intStr i ≠ [] := by
  unfold intStr
  by_cases h : i < 0
  · simp [h]
  · simp only [h, if_false]
    exact natStr_ne_nil _

theorem mapM_encode_ok (enc : RVal → Option PyStr)
    (henc : ∀ v : PVal, enc v.toR = some (pvEnc v))
    (sc : Schema) (vs : List PVal) (hsep : ∀ v ∈ vs, sc.sep ∉ pvEnc v) :
    vs.mapM (fun v =>
      match enc v.toR with
      | some e =>
        if e.contains sc.sep then
          Except.error PackErr.sepCollision
        else
          Except.ok e
      | none => Except.error PackErr.unencodable) = Except.ok (vs.map pvEnc) := by
  induction vs with
  | nil => rfl
  | cons v vs ih =>
    have hv : sc.sep ∉ pvEnc v := hsep v (List.mem_cons_self v vs)
    have hrest : ∀ w ∈ vs, sc.sep ∉ pvEnc w := fun w hw => hsep w (List.mem_cons_of_mem v hw)
    rw [List.mapM_cons, henc v]
    simp only [contains_eq_false_of_not_mem hv, if_false, ih hrest]
    rfl

theorem packWith_eval (enc : RVal → Option PyStr)
    (henc : ∀ v : PVal, enc v.toR = some (pvEnc v))
    (sc : Schema) (vs : List PVal) (hsep : ∀ v ∈ vs, sc.sep ∉ pvEnc v) :
    packWith enc sc vs =
      if MAX_CALLBACK_LENGTH < utf8Len (packedStr sc vs) then
        Except.error PackErr.tooLong
      else
        Except.ok (packedStr sc vs) := by
  unfold packWith
  rw [mapM_encode_ok enc henc sc vs hsep]
  rfl

theorem parseBool_pvEnc (b : Bool) :
    parseBool (if b then ['1'] else ['0']) = some b := by
  cases b <;> decide

theorem pvEnc_pint_ne_nil (n : Int) : pvEnc (PVal.pint n) ≠ [] := intStr_ne_nil n

theorem pvEnc_pbool_ne_nil (b : Bool) : pvEnc (PVal.pbool b) ≠ [] := by
  cases b <;> decide

/-- One field of the decode half of the round trip: the empty-token
substitution followed by constructor coercion recovers the original
value, provided the value conforms to the declared annotation and the
empty-encoding alignment condition holds. -/
theorem roundtrip_field (f : FieldSpec) (v : PVal)
    (hconf : conforms f.ty v = true)
    (hempty : pvEnc v = [] → (v = PVal.pnone ↔ f.hasDefault = true)) :
    validateField f.ty
      (if pvEnc v = [] ∧ cbdCheckFieldIsNullable f.info then none else some (pvEnc v)) =
    some v := by
  obtain ⟨fn, fty, fd⟩ := f
  have hnul : cbdCheckFieldIsNullable (FieldSpec.info ⟨fn, fty, fd⟩) = fd := by
    rw [cbdCheck_eq_hasDefault]
    rfl
  cases v with
  | pnone =>
    have hd : fd = true := (hempty rfl).1 rfl
    cases fty with
    | plain b => cases b <;> simp [conforms, conformsB] at hconf
    | opt b =>
      simp only [pvEnc, hnul, hd, and_self, if_true]
      rfl
  | pint n =>
    have hne : pvEnc (PVal.pint n) ≠ [] := pvEnc_pint_ne_nil n
    rw [if_neg (fun h => hne h.1)]
    cases fty with
    | plain b =>
      cases b <;> simp [conforms, conformsB] at hconf
      simp [validateField, coerceBase, pvEnc, parseInt_intStr]
    | opt b =>
      cases b <;> simp [conforms, conformsB] at hconf
      simp [validateField, coerceBase, pvEnc, parseInt_intStr]
  | pbool b =>
    have hne : pvEnc (PVal.pbool b) ≠ [] := pvEnc_pbool_ne_nil b
    rw [if_neg (fun h => hne h.1)]
    cases fty with
    | plain fb =>
      cases fb <;> simp [conforms, conformsB] at hconf
      simp [validateField, coerceBase, pvEnc, parseBool_pvEnc]
    | opt fb =>
      cases fb <;> simp [conforms, conformsB] at hconf
      simp [validateField, coerceBase, pvEnc, parseBool_pvEnc]
  | pstr s =>
    by_cases hs : s = []
    · subst hs
      have hd : fd = false := by
        have hiff := hempty rfl
        cases h : fd
        · rfl
        · exact PVal.noConfusion (hiff.2 h)
      rw [if_neg (by simp [cbdCheck_eq_hasDefault, FieldSpec.info, hd])]
      cases fty with
      | plain b =>
        cases b <;> simp [conforms, conformsB] at hconf
        simp [validateField, coerceBase, pvEnc]
      | opt b =>
        cases b <;> simp [conforms, conformsB] at hconf
        simp [validateField, coerceBase, pvEnc]
    · rw [if_neg (fun h => hs h.1)]
      cases fty with
      | plain b =>
        cases b <;> simp [conforms, conformsB] at hconf
        simp [validateField, coerceBase, pvEnc]
      | opt b =>
        cases b <;> simp [conforms, conformsB] at hconf
        simp [validateField, coerceBase, pvEnc]

/-- The decode half of the round trip over the whole field list. -/
theorem roundtrip_fields (fields : List FieldSpec) (vs : List PVal)
    (hlen : fields.length = vs.length)
    (hconf : ∀ p ∈ fields.zip vs, conforms p.1.ty p.2 = true)
    (hempty : ∀ p ∈ fields.zip vs,
      pvEnc p.2 = [] → (p.2 = PVal.pnone ↔ p.1.hasDefault = true)) :
    (fields.zip ((fields.zip (vs.map pvEnc)).map
        (fun p => if p.2 = [] ∧ cbdCheckFieldIsNullable p.1.info then none else some p.2))).mapM
      (fun p => validateField p.1.ty p.2) = some vs := by
  induction fields generalizing vs with
  | nil =>
    cases vs with
    | nil => rfl
    | cons v vt => simp at hlen
  | cons f fs ih =>
    cases vs with
    | nil => simp at hlen
    | cons v vt =>
      have hhead : (f, v) ∈ (f :: fs).zip (v :: vt) := by
        simp [List.zip_cons_cons]
      have hconf1 := hconf (f, v) hhead
      have hempty1 := hempty (f, v) hhead
      have hlent : fs.length = vt.length := by simpa using hlen
      have hconft : ∀ p ∈ fs.zip vt, conforms p.1.ty p.2 = true := by
        intro p hp
        exact hconf p (by simp [List.zip_cons_cons, hp])
      have hemptyt : ∀ p ∈ fs.zip vt,
          pvEnc p.2 = [] → (p.2 = PVal.pnone ↔ p.1.hasDefault = true) := by
        intro p hp
        exact hempty p (by simp [List.zip_cons_cons, hp])
      simp only [List.map_cons, List.zip_cons_cons, List.mapM_cons,
        roundtrip_field f v hconf1 hempty1, ih vt hlent hconft hemptyt]
      rfl

/-- Evaluation of `unpack` on a canonically packed string. -/
theorem unpackWith_packed (sc : Schema) (vs : List PVal)
    (hlen : vs.length = sc.fields.length)
    (hconf : ∀ p ∈ sc.fields.zip vs, conforms p.1.ty p.2 = true)
    (hpfx : sc.sep ∉ sc.pfx)
    (hsep : ∀ v ∈ vs, sc.sep ∉ pvEnc v)
    (hempty : ∀ p ∈ sc.fields.zip vs,
      pvEnc p.2 = [] → (p.2 = PVal.pnone ↔ p.1.hasDefault = true)) :
    unpackC sc (packedStr sc vs) = Except.ok vs := by
  have hsplit : splitOnC sc.sep (packedStr sc vs) = sc.pfx :: vs.map pvEnc := by
    unfold packedStr
    refine splitOnC_joinWith sc.sep (sc.pfx :: vs.map pvEnc) (by simp) ?_
    intro p hp
    rcases List.mem_cons.1 hp with h | h
    · exact h ▸ hpfx
    · rcases List.mem_map.1 h with ⟨v, hv, he⟩
      exact he ▸ hsep v hv
  unfold unpackC unpackWith
  rw [hsplit]
  have hplen : (vs.map pvEnc).length = sc.fields.length := by
    rw [List.length_map]
    exact hlen
  simp only [List.tail_cons, List.headD_cons, hplen, ne_eq, not_true_eq_false, if_false,
    not_false_eq_true]
  rw [roundtrip_fields sc.fields vs hlen.symm hconf hempty]

/-! ## Concrete fixtures used by the claim theorems and witnesses -/

/-- A plain inline keyboard button of the declared type. -/
def ikBtn (i : Nat) : Btn := { cls := "InlineKeyboardButton", bid := i }

/-- A button object of a different runtime type. -/
def evilBtn : Btn := { cls := "EvilButton", bid := 99 }

/-- An empty builder declared over `InlineKeyboardButton`. -/
def freshBuilder : Builder := { btype := "InlineKeyboardButton", grid := [] }

/-- A builder holding ten well-typed buttons in rows of at most eight. -/
def tenBtnBuilder : Builder :=
  { btype := "InlineKeyboardButton", grid := chunks 8 (List.replicate 10 (ikBtn 1)) }

/-- The declared field `x: int | None` with no default. -/
def optIntField : FieldSpec := { fname := ['x'], ty := FTy.opt FBase.fint, hasDefault := false }

/-- Schema with prefix `"p"` and the single field `x: int | None`
(no default). -/
def optIntSchema : Schema := { pfx := ['p'], sep := ':', fields := [optIntField] }

/-- Schema with prefix `"p"` and a single nullable text field
(`s: str | None = None`). -/
def nullableStrSchema : Schema :=
  { pfx := ['p'], sep := ':',
    fields := [{ fname := ['s'], ty := FTy.opt FBase.fstr, hasDefault := true }] }

/-- The spec's example schema: fields `a: int` and `b: str | None = None`,
prefix `"p"`. -/
def exampleSchema : Schema :=
  { pfx := ['p'], sep := ':',
    fields := [{ fname := ['a'], ty := FTy.plain FBase.fint, hasDefault := false },
               { fname := ['b'], ty := FTy.opt FBase.fstr, hasDefault := true }] }

/-- A 62-character prefix and one text field: a 1-character value makes
the payload exactly 64 bytes, a 2-character value 65. -/
def boundarySchema : Schema :=
  { pfx := List.replicate 62 'a', sep := ':',
    fields := [{ fname := ['t'], ty := FTy.plain FBase.fstr, hasDefault := false }] }

/-! ## The claims -/

/-- C9: calling `stop()` on a sender that is not running is a no-op that
leaves the sender state unchanged, and calling `start()` while the sender
is already running fails with `AlreadyRunning`. -/
theorem c9_stop_noop_start_already_running (s : SenderState) :
    (running s = false → stopOp s = s) ∧
    (running s = true → runOp s = Except.error "Already running") := by
  constructor
  · intro h
    simp [stopOp, h]
  · intro h
    have h2 : s.taskSome = true := h
    simp [runOp, running, h2]

/-- Witness for C9 at concrete sender states. -/
theorem c9_witness :
    stopOp { taskSome := false, closeEventSet := false, closedEventSet := false } =
      { taskSome := false, closeEventSet := false, closedEventSet := false } ∧
    runOp { taskSome := true, closeEventSet := false, closedEventSet := true } =
      Except.error "Already running" :=
  ⟨(c9_stop_noop_start_already_running _).1 rfl,
   (c9_stop_noop_start_already_running _).2 rfl⟩

/-- C5: `unpack` raises `ArityMismatch` (a `TypeError`) whenever the
value-token count differs from the field count, regardless of the prefix,
and raises `PrefixMismatch` (a `ValueError`) when the count matches but
the first token differs from the declared prefix; arity is checked before
the prefix. -/
theorem c5_arity_checked_first (sc : Schema) (input : PyStr) :
    ((splitOnC sc.sep input).tail.length ≠ sc.fields.length →
      unpackC sc input =
        Except.error (UnpackErr.arity sc.fields.length (splitOnC sc.sep input).tail.length)) ∧
    ((splitOnC sc.sep input).tail.length = sc.fields.length →
      (splitOnC sc.sep input).headD [] ≠ sc.pfx →
      unpackC sc input = Except.error UnpackErr.badPfx) := by
  constructor
  · intro h
    unfold unpackC unpackWith
    rw [if_pos h]
  · intro h1 h2
    unfold unpackC unpackWith
    rw [if_neg (by simp [h1]), if_pos h2]

/-- Witness for C5: `"p:5"` against the two-field schema is an arity
error even though the prefix matches, and `"w:5:"` (wrong prefix, right
arity) is a prefix error; `"w:5"` (wrong in both) is an arity error. -/
theorem c5_witness :
    unpackC exampleSchema ['p', ':', '5'] = Except.error (UnpackErr.arity 2 1) ∧
    unpackC exampleSchema ['w', ':', '5', ':'] = Except.error UnpackErr.badPfx ∧
    unpackC exampleSchema ['w', ':', '5'] = Except.error (UnpackErr.arity 2 1) := by
  refine ⟨?_, ?_, ?_⟩
  · exact ((c5_arity_checked_first exampleSchema ['p', ':', '5']).1 (by decide)).trans
      (by decide)
  · exact (c5_arity_checked_first exampleSchema ['w', ':', '5', ':']).2 (by decide) (by decide)
  · exact ((c5_arity_checked_first exampleSchema ['w', ':', '5']).1 (by decide)).trans
      (by decide)

/-- C4 (code bug): the value encoder of `filters/callback_data.py` fails
on every `Enum` member — `type(member)` is the concrete subclass, never
`Enum`, so the `type_to_str` dict lookup misses its (dead) `Enum` entry
and the claimed "string form of the underlying value" rule is
unreachable; the sibling `callback_data.py` encoder implements the
claimed rule.  The remaining rules behave as claimed (shown here at
concrete inputs: `None`, UUID as 32-char lowercase hex, booleans, other
types rejected). -/
theorem c4_encode_value_enum_bug :
    encodeValueFilters (RVal.venum "Color" ['1']) = none ∧
    encodeValueCbd (RVal.venum "Color" ['1']) = some ['1'] ∧
    encodeValueFilters RVal.vnone = some [] ∧
    encodeValueFilters (RVal.vuuid 255) = some (List.replicate 30 '0' ++ ['f', 'f']) ∧
    (uuidHex 255).length = 32 ∧
    encodeValueFilters (RVal.vbool true) = some ['1'] ∧
    encodeValueFilters (RVal.vbool false) = some ['0'] ∧
    encodeValueFilters (RVal.vother "dict") = none := by
  decide

/-- C2 (code bug): `adjust` consumes one size from the sizes iterator per
*button* (the `next(sizes_iter)` call sits inside the per-button loop),
so the produced row lengths do not follow the requested sizes: on three
buttons, `adjust(2, 1)` yields rows `[[b1], [b2], [b3]]` instead of the
claimed `[[b1, b2], [b3]]` (button order is still preserved). -/
theorem c2_adjust_consumes_size_per_button :
    (adjustOp { btype := "InlineKeyboardButton", grid := [[ikBtn 1, ikBtn 2, ikBtn 3]] }
        [2, 1] false).grid = [[ikBtn 1], [ikBtn 2], [ikBtn 3]] ∧
    ([[ikBtn 1], [ikBtn 2], [ikBtn 3]] : List (List Btn)) ≠ [[ikBtn 1, ikBtn 2], [ikBtn 3]] := by
  decide

/-- C3 (code bug): the builder's validation does not enforce the claimed
invariants.  `_validate_buttons` is `all(map(_validate_button, ...))`
with a `None`-returning `_validate_button`, so `all` short-circuits after
the first button: `row(good, bad)` succeeds and stores the ill-typed
button (only `row(bad, ...)` raises).  `add` performs no validation at
all, so the 100-button cap is not enforced, and `adjust` can produce rows
wider than 8. -/
theorem c3_builder_validation_bug :
    rowOp freshBuilder [ikBtn 1, evilBtn] none =
      Except.ok { btype := "InlineKeyboardButton", grid := [[ikBtn 1, evilBtn]] } ∧
    isInst evilBtn "InlineKeyboardButton" = false ∧
    rowOp freshBuilder [evilBtn, ikBtn 1] none = Except.error "TypeMismatch" ∧
    totalButtons (addOp freshBuilder (List.replicate 101 (ikBtn 1))) = 101 ∧
    ((adjustOp tenBtnBuilder [20] false).grid.map List.length) = [10] := by
  decide

/-- C7 (code bug): the claimed nullability ("has a default or declared
type is union-with-None") is what the spec prescribes, but the code's
union clause is dead: `None in typing.get_args(int | None)` compares the
value `None` against the classes `int` and `NoneType` and is always
false.  So for `x: int | None` with no default, an empty token is not
substituted with `None`; it is passed to the constructor and `unpack`
fails with a validation error instead of decoding `None`. -/
theorem c7_nullable_union_bug :
    specNullable optIntField.info = true ∧
    filtersCheckFieldIsNullable optIntField.info = false ∧
    cbdCheckFieldIsNullable optIntField.info = false ∧
    unpackF optIntSchema ['p', ':'] = Except.error UnpackErr.invalidPayload ∧
    unpackF optIntSchema ['p', ':'] ≠ Except.ok [PVal.pnone] := by
  decide

theorem unpackErr_caught (e : UnpackErr) :
    e.pyClass = "TypeError" ∨ e.pyClass = "ValueError" := by
  cases e <;> simp [UnpackErr.pyClass]

/-- C8: the filter returns no-match when the update is not a callback
query or its payload is absent/empty; any codec error from `unpack` gives
no-match (its exception class is always `TypeError` or `ValueError`, both
caught); a successful decode matches, carrying the instance under the key
`"callback_data"`, unless a secondary rule rejects it; and no exception
ever propagates to the dispatcher. -/
theorem c8_filter_semantics (sc : Schema)
    (rule : Option (List PVal → Bool)) (q : CbQuery) :
    (q.isCb = false ∨ q.qdata = none ∨ q.qdata = some [] →
      filterCall sc rule q = Except.ok none) ∧
    (∀ d e, q.qdata = some d → unpackC sc d = Except.error e →
      filterCall sc rule q = Except.ok none) ∧
    (∀ d inst, q.isCb = true → q.qdata = some d → d ≠ [] →
      unpackC sc d = Except.ok inst →
      (rule = none ∨ ∃ r, rule = some r ∧ r inst = true) →
      filterCall sc rule q = Except.ok (some ("callback_data", inst))) ∧
    (∀ d inst r, q.qdata = some d → unpackC sc d = Except.ok inst →
      rule = some r → r inst = false →
      filterCall sc rule q = Except.ok none) ∧
    (∀ e, filterCall sc rule q ≠ Except.error e) := by
  have hok : ∃ o, filterCall sc rule q = Except.ok o := by
    unfold filterCall
    cases hcb : q.isCb with
    | false => exact ⟨none, rfl⟩
    | true =>
      cases hd : q.qdata with
      | none => exact ⟨none, rfl⟩
      | some d =>
        by_cases hdn : d = []
        · exact ⟨none, by simp [hdn]⟩
        · simp only [Bool.not_true, if_false, hdn, if_neg hdn]
          cases hu : unpackC sc d with
          | error e =>
            rcases unpackErr_caught e with h | h <;> exact ⟨none, by simp [h]⟩
          | ok inst =>
            cases rule with
            | none => exact ⟨some ("callback_data", inst), rfl⟩
            | some r =>
              by_cases hr : r inst
              · exact ⟨some ("callback_data", inst), by simp [hr]⟩
              · exact ⟨none, by simp [hr]⟩
  refine ⟨?_, ?_, ?_, ?_, ?_⟩
  · intro h
    rcases h with h | h | h
    · simp [filterCall, h]
    · unfold filterCall
      cases hcb : q.isCb <;> simp [h]
    · unfold filterCall
      cases hcb : q.isCb <;> simp [h]
  · intro d e hd he
    unfold filterCall
    cases hcb : q.isCb with
    | false => rfl
    | true =>
      rw [hd]
      by_cases hdn : d = []
      · simp [hdn]
      · simp only [Bool.not_true, if_false, if_neg hdn, he]
        rcases unpackErr_caught e with h | h <;> simp [h]
  · intro d inst hcb hd hdn hu hrule
    unfold filterCall
    rw [hcb, hd]
    simp only [Bool.not_true, if_false, if_neg hdn, hu]
    rcases hrule with h | ⟨r, hr, htrue⟩
    · simp [h]
    · simp [hr, htrue]
  · intro d inst r hd hu hr hfalse
    unfold filterCall
    cases hcb : q.isCb with
    | false => rfl
    | true =>
      rw [hd]
      by_cases hdn : d = []
      · simp [hdn]
      · simp only [Bool.not_true, if_false, if_neg hdn, hu, hr, hfalse]
        rfl
  · intro e hcon
    rcases hok with ⟨o, ho⟩
    rw [ho] at hcon
    exact Except.noConfusion hcon

/-- Witness for C8 at concrete inputs: an ill-prefixed payload gives
no-match without an exception; a matching payload with no rule matches. -/
theorem c8_witness :
    filterCall exampleSchema none { isCb := true, qdata := some ['w', ':', '5', ':'] } =
      Except.ok none ∧
    filterCall exampleSchema none { isCb := true, qdata := some ['p', ':', '5', ':'] } =
      Except.ok (some ("callback_data", [PVal.pint 5, PVal.pnone])) ∧
    filterCall exampleSchema none { isCb := false, qdata := some ['p', ':', '5', ':'] } =
      Except.ok none := by
  refine ⟨?_, ?_, ?_⟩
  · exact (c8_filter_semantics exampleSchema none _).2.1 ['w', ':', '5', ':']
      UnpackErr.badPfx rfl (by decide)
  · exact (c8_filter_semantics exampleSchema none _).2.2.1 ['p', ':', '5', ':']
      [PVal.pint 5, PVal.pnone] rfl rfl (by decide) (by decide) (Or.inl rfl)
  · exact (c8_filter_semantics exampleSchema none _).1 (Or.inl rfl)

/-- C6: `pack` fails with `PayloadTooLong` exactly when the joined
string's UTF-8 byte length exceeds `MAX_CALLBACK_LENGTH = 64` (given the
encoded values avoid the separator, the only other failure source), and
returns the joined string exactly when the length is at most 64; the
bound is the fixed module constant, not a schema or call parameter. -/
theorem c6_payload_too_long_boundary :
    MAX_CALLBACK_LENGTH = 64 ∧
    ∀ (sc : Schema) (vs : List PVal), (∀ v ∈ vs, sc.sep ∉ pvEnc v) →
      ((packC sc vs = Except.error PackErr.tooLong ↔
          64 < utf8Len (packedStr sc vs)) ∧
       (packC sc vs = Except.ok (packedStr sc vs) ↔
          utf8Len (packedStr sc vs) ≤ 64)) := by
  refine ⟨rfl, ?_⟩
  intro sc vs hsep
  rw [show packC sc vs = packWith encodeValueCbd sc vs from rfl,
    packWith_eval encodeValueCbd encodeValueCbd_toR sc vs hsep]
  by_cases hlt : MAX_CALLBACK_LENGTH < utf8Len (packedStr sc vs)
  · rw [if_pos hlt]
    have h64 : 64 < utf8Len (packedStr sc vs) := hlt
    refine ⟨⟨fun _ => h64, fun _ => rfl⟩, ?_, ?_⟩
    · intro h
      exact absurd h (fun hc => Except.noConfusion hc)
    · intro h
      exact absurd h (by omega)
  · rw [if_neg hlt]
    have h64 : utf8Len (packedStr sc vs) ≤ 64 := Nat.not_lt.1 hlt
    refine ⟨⟨?_, ?_⟩, fun _ => h64, fun _ => rfl⟩
    · intro h
      exact absurd h (fun hc => Except.noConfusion hc)
    · intro h
      exact absurd h (by omega)

/-- Witness for C6 at the boundary: a 64-byte payload is returned, a
65-byte payload raises `PayloadTooLong`. -/
theorem c6_witness :
    packC boundarySchema [PVal.pstr ['x']] =
      Except.ok (packedStr boundarySchema [PVal.pstr ['x']]) ∧
    utf8Len (packedStr boundarySchema [PVal.pstr ['x']]) = 64 ∧
    packC boundarySchema [PVal.pstr ['x', 'y']] = Except.error PackErr.tooLong ∧
    utf8Len (packedStr boundarySchema [PVal.pstr ['x', 'y']]) = 65 := by
  refine ⟨?_, by decide, ?_, by decide⟩
  · exact ((c6_payload_too_long_boundary.2 boundarySchema [PVal.pstr ['x']]
      (by decide)).2).mpr (by decide)
  · exact ((c6_payload_too_long_boundary.2 boundarySchema [PVal.pstr ['x', 'y']]
      (by decide)).1).mpr (by decide)

/-- Counterexample to C10 as stated: the two `_encode_value`
implementations disagree on an `Enum` member (the `filters` one cannot
encode it, the other encodes the underlying value). -/
theorem c10_counterexample :
    encodeValueFilters (RVal.venum "Color" ['1']) ≠
      encodeValueCbd (RVal.venum "Color" ['1']) := by
  decide

/-- C10 (amended): the two implementations are behaviorally equivalent
in nullable-field classification, in `unpack` on every input, in `pack`
on every instance, and in value encoding on every JSON-scalar runtime
value (all that `pack` can feed them); their value encoders differ only
on values outside that universe, such as `Enum` members. -/
theorem c10_equivalence_amended :
    (∀ f : FieldInfo, filtersCheckFieldIsNullable f = cbdCheckFieldIsNullable f) ∧
    (∀ v : RVal, v.isJsonScalar → encodeValueFilters v = encodeValueCbd v) ∧
    (∀ (sc : Schema) (vs : List PVal), packF sc vs = packC sc vs) ∧
    (∀ (sc : Schema) (input : PyStr), unpackF sc input = unpackC sc input) := by
  refine ⟨?_, ?_, ?_, ?_⟩
  · intro f
    rw [filtersCheck_eq_hasDefault, cbdCheck_eq_hasDefault]
  · intro v hv
    cases v <;> first | rfl | exact hv.elim
  · intro sc vs
    unfold packF packC packWith
    have hfun : (fun (v : PVal) =>
        match encodeValueFilters v.toR with
        | some e =>
          if e.contains sc.sep then
            Except.error PackErr.sepCollision
          else
            Except.ok e
        | none => Except.error PackErr.unencodable) =
      (fun (v : PVal) =>
        match encodeValueCbd v.toR with
        | some e =>
          if e.contains sc.sep then
            Except.error PackErr.sepCollision
          else
            Except.ok e
        | none => Except.error PackErr.unencodable) := by
      funext v
      rw [encodeValueFilters_toR, encodeValueCbd_toR]
    rw [hfun]
  · intro sc input
    unfold unpackF unpackC unpackWith
    have hfun : (fun (p : FieldSpec × PyStr) =>
        if p.2 = [] ∧ filtersCheckFieldIsNullable p.1.info then none else some p.2) =
      (fun (p : FieldSpec × PyStr) =>
        if p.2 = [] ∧ cbdCheckFieldIsNullable p.1.info then none else some p.2) := by
      funext p
      rw [filtersCheck_eq_hasDefault, cbdCheck_eq_hasDefault]
    rw [hfun]

/-- Witness for C10 at concrete inputs. -/
theorem c10_witness :
    encodeValueFilters (RVal.vint 7) = encodeValueCbd (RVal.vint 7) ∧
    packF exampleSchema [PVal.pint 5, PVal.pnone] =
      packC exampleSchema [PVal.pint 5, PVal.pnone] ∧
    unpackF exampleSchema ['p', ':', '5', ':'] =
      unpackC exampleSchema ['p', ':', '5', ':'] :=
  ⟨c10_equivalence_amended.2.1 (RVal.vint 7) trivial,
   c10_equivalence_amended.2.2.1 exampleSchema [PVal.pint 5, PVal.pnone],
   c10_equivalence_amended.2.2.2 exampleSchema ['p', ':', '5', ':']⟩

/-- Counterexample to C1 as stated: in the schema with the single
nullable field `s: str | None = None`, the instance `s = ""` satisfies
every hypothesis of the claim (its encoded form `""` avoids the
separator, the payload `"p:"` is 2 bytes), yet decode returns `s = None`,
not an instance equal to the original. -/
theorem c1_roundtrip_counterexample :
    conforms (FTy.opt FBase.fstr) (PVal.pstr []) = true ∧
    (pvEnc (PVal.pstr [])).contains ':' = false ∧
    packC nullableStrSchema [PVal.pstr []] = Except.ok ['p', ':'] ∧
    utf8Len ['p', ':'] ≤ 64 ∧
    unpackC nullableStrSchema ['p', ':'] = Except.ok [PVal.pnone] ∧
    (Except.ok [PVal.pnone] : Except UnpackErr (List PVal)) ≠
      Except.ok [PVal.pstr []] := by
  decide

/-- C1 (amended): `unpack (pack x) = x` field-for-field, for every schema
of the modelled universe and every conforming instance whose encoded
field forms avoid the separator and whose joined payload is at most 64
UTF-8 bytes, under the additional alignment condition the counterexample
forces: a field whose encoded form is the empty string holds `None` if
and only if the field has a default (otherwise the empty-string-as-null
convention loses the value or the constructor rejects the payload). -/
theorem c1_roundtrip_amended (sc : Schema) (vs : List PVal)
    (hlen : vs.length = sc.fields.length)
    (hconf : ∀ p ∈ sc.fields.zip vs, conforms p.1.ty p.2 = true)
    (hpfx : sc.sep ∉ sc.pfx)
    (hsep : ∀ v ∈ vs, sc.sep ∉ pvEnc v)
    (hempty : ∀ p ∈ sc.fields.zip vs,
      pvEnc p.2 = [] → (p.2 = PVal.pnone ↔ p.1.hasDefault = true))
    (hbytes : utf8Len (packedStr sc vs) ≤ 64) :
    packC sc vs = Except.ok (packedStr sc vs) ∧
    unpackC sc (packedStr sc vs) = Except.ok vs := by
  constructor
  · rw [show packC sc vs = packWith encodeValueCbd sc vs from rfl,
      packWith_eval encodeValueCbd encodeValueCbd_toR sc vs hsep]
    rw [if_neg (by simp only [MAX_CALLBACK_LENGTH]; omega)]
  · exact unpackWith_packed sc vs hlen hconf hpfx hsep hempty

/-- Witness for C1: the spec's own example instance `(a = 5, b = None)`
packs to `"p:5:"` and unpacks back to itself. -/
theorem c1_witness :
    packC exampleSchema [PVal.pint 5, PVal.pnone] = Except.ok ['p', ':', '5', ':'] ∧
    unpackC exampleSchema ['p', ':', '5', ':'] = Except.ok [PVal.pint 5, PVal.pnone] := by
  have hps : packedStr exampleSchema [PVal.pint 5, PVal.pnone] = ['p', ':', '5', ':'] := by
    decide
  have h := c1_roundtrip_amended exampleSchema [PVal.pint 5, PVal.pnone] (by decide)
    (by decide) (by decide) (by decide) (by decide) (by decide)
  exact ⟨hps ▸ h.1, hps ▸ h.2⟩

end Hairydogm
